import Mathlib

/-!
Verification development for the Code Context Graph (CCG) engine:
a shallow embedding of `src/genius/ccg_builder.py` and the regex-based
extractors of `src/parser_engine.py`, together with theorems settling the
specification's claims about them.

Modelling conventions:
* Python `dict` (insertion-ordered, unique keys) is an association list;
  assignment updates an existing key in place and appends a fresh key.
* `collections.defaultdict(list)`'s `d[k].append(v)` is `dictAppend`.
* Python strings are `String`/`List Char`; `len` is character count.
* Regex `findall` calls are embedded as dedicated left-to-right scanners
  that resume after each non-overlapping match, exactly as `re.findall`
  does for the concrete patterns in the source.  Recursive scanners take
  a fuel argument (always called with enough fuel for the input) so that
  they are structurally recursive and kernel-evaluable.
* `list(set(xs))` is `xs.dedup`: Python's set iteration order is
  unspecified, so we fix a canonical duplicate-free enumeration; claims
  below depend only on membership and duplicate-freeness.
-/

/-- Python dict assignment `d[k] = v`: update in place, else append. -/
def dictSet {κ α : Type} [DecidableEq κ] (k : κ) (v : α) : List (κ × α) → List (κ × α)
  | [] => [(k, v)]
  | (k', v') :: rest => if k' = k then (k, v) :: rest else (k', v') :: dictSet k v rest

/-- Python dict lookup `d.get(k)`. -/
def dictGet {κ α : Type} [DecidableEq κ] (k : κ) : List (κ × α) → Option α
  | [] => none
  | (k', v) :: rest => if k' = k then some v else dictGet k rest

/-- Python membership `k in d`. -/
def dictContains {κ α : Type} [DecidableEq κ] (k : κ) (d : List (κ × α)) : Bool :=
  (dictGet k d).isSome

/-- `defaultdict(list)` update `d[k].append(v)`. -/
def dictAppend {κ α : Type} [DecidableEq κ] (k : κ) (v : α) : List (κ × List α) → List (κ × List α)
  | [] => [(k, [v])]
  | (k', vs) :: rest => if k' = k then (k', vs ++ [v]) :: rest else (k', vs) :: dictAppend k v rest

/-- Keys of a dict, in insertion order. -/
def dictKeys {κ α : Type} (d : List (κ × α)) : List κ :=
  d.map (·.1)

/-- Python substring containment `needle in hay` on character lists. -/
def listContainsSub (needle : List Char) : List Char → Bool
  | [] => needle.isEmpty
  | c :: t => needle.isPrefixOf (c :: t) || listContainsSub needle t

/-- Python substring containment `needle in hay` on strings. -/
def strIn (needle hay : String) : Bool :=
  listContainsSub needle.data hay.data

/-- An entity record: the dict stored per node by `build_code_context_graph`
(keys `name`, `type`, `language`, `file_path`). -/
structure EntityData where
  name : String
  type : String
  language : String
  file_path : String
deriving DecidableEq, Repr

/-- The mutable graph of `class CodeContextGraph`. -/
structure CodeContextGraph where
  nodes : List (String × EntityData)
  edges : List (String × List String)
  edge_types : List ((String × String) × String)
  file_entities : List (String × List String)
deriving DecidableEq, Repr

/-- `CodeContextGraph.__init__`: all four containers empty. -/
def emptyCCG : CodeContextGraph :=
  { nodes := [], edges := [], edge_types := [], file_entities := [] }

/-- `CodeContextGraph.add_node`: store the record under `entity_id`, and if
`entity_data['file_path']` is truthy (non-empty) append the id to that
file's bucket. -/
def CodeContextGraph.add_node (g : CodeContextGraph) (entity_id : String) (entity_data : EntityData) : CodeContextGraph :=
  let g1 := { g with nodes := dictSet entity_id entity_data g.nodes }
  if entity_data.file_path ≠ "" then
    { g1 with file_entities := dictAppend entity_data.file_path entity_id g1.file_entities }
  else g1

/-- `CodeContextGraph.add_edge`: only when both endpoints are existing nodes,
append to the adjacency list and set the type index entry. -/
def CodeContextGraph.add_edge (g : CodeContextGraph) (from_id to_id edge_type : String) : CodeContextGraph :=
  if dictContains from_id g.nodes && dictContains to_id g.nodes then
    { g with
      edges := dictAppend from_id to_id g.edges
      edge_types := dictSet (from_id, to_id) edge_type g.edge_types }
  else g

/-- The stats dict of `CodeContextGraph.get_stats` (the Python float average
is modelled exactly as a rational). -/
structure CCGStats where
  node_count : Nat
  edge_count : Nat
  file_count : Nat
  avg_connections : ℚ
deriving DecidableEq, Repr

/-- `CodeContextGraph.get_stats`. -/
def CodeContextGraph.get_stats (g : CodeContextGraph) : CCGStats :=
  { node_count := g.nodes.length
    edge_count := (g.edges.map (fun pr => pr.2.length)).sum
    file_count := g.file_entities.length
    avg_connections :=
      ((g.edges.map (fun pr => pr.2.length)).sum : ℚ) / (max g.nodes.length 1 : ℚ) }

/-- The serialized snapshot returned by `CodeContextGraph.to_dict`. -/
structure CCGDict where
  nodes : List (String × EntityData)
  edges : List (String × List String)
  edge_types : List (String × String)
  stats : CCGStats
deriving DecidableEq, Repr

/-- `CodeContextGraph.to_dict`: flatten the type index to `"from->to"` keys. -/
def CodeContextGraph.to_dict (g : CodeContextGraph) : CCGDict :=
  { nodes := g.nodes
    edges := g.edges
    edge_types := g.edge_types.map (fun pr => (pr.1.1 ++ "->" ++ pr.1.2, pr.2))
    stats := g.get_stats }

/-- A per-file extraction record as consumed by `build_code_context_graph`.
Each field models one dict key; a missing key is the empty list, `error`
models truthiness of the `error` entry, and `content = none` models the
key `content` being absent. -/
structure ParsedFile where
  error : Bool
  path : String
  type : String
  funcs : List String
  classes : List String
  structs : List String
  enums : List String
  traits : List String
  walkers : List String
  nodes : List String
  abilities : List String
  globals : List String
  edges : List String
  imports : List String
  content : Option String
deriving DecidableEq, Repr

/-- A record with every key absent/falsy, for building fixtures. -/
def emptyRecord : ParsedFile :=
  { error := false, path := "", type := "", funcs := [], classes := [], structs := []
    enums := [], traits := [], walkers := [], nodes := [], abilities := []
    globals := [], edges := [], imports := [], content := none }

/-- Pass 1 of `build_code_context_graph`, one record: skip error records,
then branch on the language tag and add one node per handled item, with the
id formats of the nine `add_node` call sites. -/
def pass1 (g : CodeContextGraph) (pfile : ParsedFile) : CodeContextGraph :=
  if pfile.error then g else
  let file_path := pfile.path
  if pfile.type = "python" then
    let g := pfile.funcs.foldl (fun g func_name =>
      g.add_node (file_path ++ "::" ++ func_name)
        { name := func_name, type := "function", language := "python", file_path := file_path }) g
    pfile.classes.foldl (fun g class_name =>
      g.add_node (file_path ++ "::" ++ class_name)
        { name := class_name, type := "class", language := "python", file_path := file_path }) g
  else if pfile.type = "jac" then
    let g := pfile.nodes.foldl (fun g node_name =>
      g.add_node (file_path ++ "::node:" ++ node_name)
        { name := node_name, type := "node", language := "jac", file_path := file_path }) g
    let g := pfile.walkers.foldl (fun g walker_name =>
      g.add_node (file_path ++ "::walker:" ++ walker_name)
        { name := walker_name, type := "walker", language := "jac", file_path := file_path }) g
    pfile.abilities.foldl (fun g ability_name =>
      g.add_node (file_path ++ "::ability:" ++ ability_name)
        { name := ability_name, type := "ability", language := "jac", file_path := file_path }) g
  else if pfile.type = "javascript" then
    let g := pfile.funcs.foldl (fun g func_name =>
      g.add_node (file_path ++ "::" ++ func_name)
        { name := func_name, type := "function", language := "javascript", file_path := file_path }) g
    pfile.classes.foldl (fun g class_name =>
      g.add_node (file_path ++ "::" ++ class_name)
        { name := class_name, type := "class", language := "javascript", file_path := file_path }) g
  else if pfile.type = "rust" then
    let g := pfile.funcs.foldl (fun g func_name =>
      g.add_node (file_path ++ "::" ++ func_name)
        { name := func_name, type := "function", language := "rust", file_path := file_path }) g
    pfile.structs.foldl (fun g struct_name =>
      g.add_node (file_path ++ "::" ++ struct_name)
        { name := struct_name, type := "struct", language := "rust", file_path := file_path }) g
  else g

/-- Pass 1 over the whole record list, from the fresh graph. -/
def pass1All (parsed_files : List ParsedFile) : CodeContextGraph :=
  parsed_files.foldl pass1 emptyCCG

/-- The name read back for an entity id in pass 2:
`ccg.get_entity(entity_id).get('name', '')`. -/
def entityNameIn (g : CodeContextGraph) (entity_id : String) : String :=
  match dictGet entity_id g.nodes with
  | some d => d.name
  | none => ""

/-- Pass 2, innermost loop body: the edge test
`if entity_name in content and len(entity_name) > 3` followed by
`add_edge(other_entity_id, entity_id, 'calls')`.  The test reads
`entity_name` — the scanning file's own entity's name — against the
scanning file's own content; it never looks at the candidate target's
name. -/
def pass2AddCalls (entity_name content entity_id : String) (g3 : CodeContextGraph) (other_entity_id : String) : CodeContextGraph :=
  if strIn entity_name content && decide (entity_name.length > 3) then
    g3.add_edge other_entity_id entity_id "calls"
  else g3

/-- Pass 2, middle loop body: skip the scanning file's own bucket, otherwise
run the innermost loop over that bucket's entities. -/
def pass2Bucket (entity_name content entity_id file_path : String) (g2 : CodeContextGraph) (pr : String × List String) : CodeContextGraph :=
  if pr.1 = file_path then g2
  else pr.2.foldl (pass2AddCalls entity_name content entity_id) g2

/-- Pass 2 for one declared entity of the scanning file: read the entity's
stored name, then walk every file bucket of the file index. -/
def pass2Entity (file_path content : String) (g : CodeContextGraph) (entity_id : String) : CodeContextGraph :=
  g.file_entities.foldl (pass2Bucket (entityNameIn g entity_id) content entity_id file_path) g

/-- Pass 2 of `build_code_context_graph`, one record: skipped when the record
is an error or carries no `content` key; otherwise runs `pass2Entity` for
each entity listed under the record's path in the file index. -/
def pass2 (g : CodeContextGraph) (pfile : ParsedFile) : CodeContextGraph :=
  if pfile.error then g else
  match pfile.content with
  | none => g
  | some content =>
    let file_path := pfile.path
    let current_entities := (dictGet file_path g.file_entities).getD []
    current_entities.foldl (pass2Entity file_path content) g

/-- The assembled graph before serialization: pass 1 then pass 2. -/
def buildGraph (parsed_files : List ParsedFile) : CodeContextGraph :=
  parsed_files.foldl pass2 (pass1All parsed_files)

/-- `build_code_context_graph`: two passes, then `to_dict`. -/
def build_code_context_graph (parsed_files : List ParsedFile) : CCGDict :=
  (buildGraph parsed_files).to_dict

/-- Adjacency list of an id in the assembled graph (`edges.get(x, [])`). -/
def adj (g : CodeContextGraph) (x : String) : List String :=
  (dictGet x g.edges).getD []

/-- Python `\w` (ASCII range, which is all the fixtures use). -/
def isWordChar (c : Char) : Bool :=
  c.isAlphanum || c = '_'

/-- Python `\s`. -/
def isSpaceChar (c : Char) : Bool :=
  c.isWhitespace

/-- Result of one regex match attempt: the captured group, whether the last
consumed character is a word character (for `\b` tracking at the resume
point), and the remaining input after the whole match. -/
def MatchRes : Type := List Char × Bool × List Char

/-- Matcher for `KW\s+(\w+)` at the current position (the `\b` on the left is
the scanner's job); also covers the `walker/node/enum/edge` patterns whose
trailing `\s*[{:]?` never changes the match set or the boundary behaviour,
since those trailing characters are non-word and no match can begin at them. -/
def matchKwIdent (kw : List Char) (s : List Char) : Option MatchRes :=
  if kw.isPrefixOf s then
    let s1 := s.drop kw.length
    let ws := s1.takeWhile isSpaceChar
    if ws.isEmpty then none else
    let s2 := s1.drop ws.length
    let ident := s2.takeWhile isWordChar
    if ident.isEmpty then none else
    some (ident, true, s2.drop ident.length)
  else none

/-- Matcher for the arrow-function pattern
`const\s+(\w+)\s*=\s*\([^)]*\)\s*=>` at the current position. -/
def matchArrow (s : List Char) : Option MatchRes :=
  if ("const".data).isPrefixOf s then
    let s1 := s.drop 5
    let ws := s1.takeWhile isSpaceChar
    if ws.isEmpty then none else
    let s2 := s1.drop ws.length
    let ident := s2.takeWhile isWordChar
    if ident.isEmpty then none else
    match (s2.drop ident.length).dropWhile isSpaceChar with
    | '=' :: s4 =>
      match s4.dropWhile isSpaceChar with
      | '(' :: s6 =>
        let args := s6.takeWhile (fun c => c ≠ ')')
        match s6.drop args.length with
        | ')' :: s7 =>
          match s7.dropWhile isSpaceChar with
          | '=' :: '>' :: s9 => some (ident, false, s9)
          | _ => none
        | _ => none
      | _ => none
    | _ => none
  else none

/-- Matcher for `can\s+(\w+)\s+with` (jac abilities). -/
def matchCanWith (s : List Char) : Option MatchRes :=
  if ("can".data).isPrefixOf s then
    let s1 := s.drop 3
    let ws := s1.takeWhile isSpaceChar
    if ws.isEmpty then none else
    let s2 := s1.drop ws.length
    let ident := s2.takeWhile isWordChar
    if ident.isEmpty then none else
    let s3 := s2.drop ident.length
    let ws2 := s3.takeWhile isSpaceChar
    if ws2.isEmpty then none else
    let s4 := s3.drop ws2.length
    if ("with".data).isPrefixOf s4 then some (ident, true, s4.drop 4) else none
  else none

/-- Matcher for `glob\s+(\w+)\s*=` (jac globals). -/
def matchGlob (s : List Char) : Option MatchRes :=
  if ("glob".data).isPrefixOf s then
    let s1 := s.drop 4
    let ws := s1.takeWhile isSpaceChar
    if ws.isEmpty then none else
    let s2 := s1.drop ws.length
    let ident := s2.takeWhile isWordChar
    if ident.isEmpty then none else
    match (s2.drop ident.length).dropWhile isSpaceChar with
    | '=' :: s4 => some (ident, false, s4)
    | _ => none
  else none

/-- Boundary-aware `re.findall` scan: try the matcher only where the previous
character is not a word character (every embedded pattern starts with `\b`
and a word character), resume after each non-overlapping match.  Fuel is
structural; callers pass `length + 1`, enough because every step consumes at
least one character. -/
def scanWithB (matcher : List Char → Option MatchRes) : Nat → Bool → List Char → List (List Char)
  | 0, _, _ => []
  | _ + 1, _, [] => []
  | fuel + 1, prevWord, c :: t =>
    if prevWord then scanWithB matcher fuel (isWordChar c) t
    else
      match matcher (c :: t) with
      | some (cap, pw, rest) => cap :: scanWithB matcher fuel pw rest
      | none => scanWithB matcher fuel (isWordChar c) t

/-- Boundary-free `re.findall` scan for the patterns without `\b`. -/
def scanNoB (matcher : List Char → Option MatchRes) : Nat → List Char → List (List Char)
  | 0, _ => []
  | _ + 1, [] => []
  | fuel + 1, c :: t =>
    match matcher (c :: t) with
    | some (cap, _, rest) => cap :: scanNoB matcher fuel rest
    | none => scanNoB matcher fuel t

/-- `re.findall` for the keyword-identifier patterns (`\bKW\s+(\w+)`). -/
def findKwIdents (kw code : String) : List String :=
  (scanWithB (matchKwIdent kw.data) (code.data.length + 1) false code.data).map (fun l => ⟨l⟩)

/-- Matcher for the rust pattern `use\s+([^;]+);` (no `\b` in the source). -/
def matchUse (s : List Char) : Option MatchRes :=
  if ("use".data).isPrefixOf s then
    let s1 := s.drop 3
    let ws := s1.takeWhile isSpaceChar
    if ws.isEmpty then none else
    let s2 := s1.drop ws.length
    let body := s2.takeWhile (fun c => c ≠ ';')
    if body.isEmpty then none else
    match s2.drop body.length with
    | ';' :: s3 => some (body, false, s3)
    | _ => none
  else none

/-- Matcher for `from\s+['"]([^'"]+)['"]` — tail of the js import pattern. -/
def matchFromQuote (s : List Char) : Option MatchRes :=
  if ("from".data).isPrefixOf s then
    let s1 := s.drop 4
    let ws := s1.takeWhile isSpaceChar
    if ws.isEmpty then none else
    match s1.drop ws.length with
    | q :: s2 =>
      if q = '\'' || q = '"' then
        let body := s2.takeWhile (fun c => !(c = '\'' || c = '"'))
        if body.isEmpty then none else
        match s2.drop body.length with
        | q2 :: s3 => if q2 = '\'' || q2 = '"' then some (body, false, s3) else none
        | _ => none
      else none
    | _ => none
  else none

/-- The lazy `.*?from\s+['"]...` search: first position, scanning only over
non-newline characters, where the `from` tail matches (Python `.` does not
cross newlines). -/
def scanLazyFrom : List Char → Option MatchRes
  | [] => none
  | c :: t =>
    match matchFromQuote (c :: t) with
    | some r => some r
    | none => if c = '\n' then none else scanLazyFrom t

/-- Matcher for `import\s+.*?from\s+['"]([^'"]+)['"]` (js imports). -/
def matchJsImport (s : List Char) : Option MatchRes :=
  if ("import".data).isPrefixOf s then
    let s1 := s.drop 6
    let ws := s1.takeWhile isSpaceChar
    if ws.isEmpty then none else
    scanLazyFrom (s1.drop ws.length)
  else none

/-- Matcher for `require\(['"]([^'"]+)['"]\)` (js requires). -/
def matchRequire (s : List Char) : Option MatchRes :=
  if ("require(".data).isPrefixOf s then
    match s.drop 8 with
    | q :: s2 =>
      if q = '\'' || q = '"' then
        let body := s2.takeWhile (fun c => !(c = '\'' || c = '"'))
        if body.isEmpty then none else
        match s2.drop body.length with
        | q2 :: ')' :: s3 =>
          if q2 = '\'' || q2 = '"' then some (body, false, s3) else none
        | _ => none
      else none
    | _ => none
  else none

/-- Matcher for `import:py\s+from\s+(\w+)` / `import:jac\s+from\s+(\w+)`,
parameterized by the language tag after the colon. -/
def matchImportTagged (tag : List Char) (s : List Char) : Option MatchRes :=
  if (("import:".data ++ tag)).isPrefixOf s then
    let s1 := s.drop (7 + tag.length)
    let ws := s1.takeWhile isSpaceChar
    if ws.isEmpty then none else
    let s2 := s1.drop ws.length
    if ("from".data).isPrefixOf s2 then
      let s3 := s2.drop 4
      let ws2 := s3.takeWhile isSpaceChar
      if ws2.isEmpty then none else
      let s4 := s3.drop ws2.length
      let ident := s4.takeWhile isWordChar
      if ident.isEmpty then none else
      some (ident, true, s4.drop ident.length)
    else none
  else none

/-- Matcher for the brace import `import\s+from\s+[\w.]+\s*{\s*([^}]+)\s*}`;
the greedy `[^}]+` capture keeps any whitespace before the closing brace. -/
def matchImportBrace (s : List Char) : Option MatchRes :=
  if ("import".data).isPrefixOf s then
    let s1 := s.drop 6
    let ws := s1.takeWhile isSpaceChar
    if ws.isEmpty then none else
    let s2 := s1.drop ws.length
    if ("from".data).isPrefixOf s2 then
      let s3 := s2.drop 4
      let ws2 := s3.takeWhile isSpaceChar
      if ws2.isEmpty then none else
      let s4 := s3.drop ws2.length
      let base := s4.takeWhile (fun c => isWordChar c || c = '.')
      if base.isEmpty then none else
      match (s4.drop base.length).dropWhile isSpaceChar with
      | '\x7b' :: s6 =>
        let inner := s6.dropWhile isSpaceChar
        let body := inner.takeWhile (fun c => c ≠ '\x7d')
        if body.isEmpty then none else
        match inner.drop body.length with
        | '\x7d' :: s7 => some (body, false, s7)
        | _ => none
      | _ => none
    else none
  else none

/-- `re.findall` helper for the boundary-free matchers. -/
def findNoB (matcher : List Char → Option MatchRes) (code : String) : List String :=
  (scanNoB matcher (code.data.length + 1) code.data).map (fun l => ⟨l⟩)

/-- `parse_javascript` of `parser_engine.py` on already-read file text:
function and arrow-function names, class names, two import styles; every
output list goes through `list(set(...))`. -/
def parse_javascript (code : String) : ParsedFile :=
  let funcs := findKwIdents "function" code
  let arrow_funcs := (scanWithB matchArrow (code.data.length + 1) false code.data).map (fun l => (⟨l⟩ : String))
  let classes := findKwIdents "class" code
  let imports := findNoB matchJsImport code ++ findNoB matchRequire code
  { emptyRecord with
    type := "javascript"
    funcs := (funcs ++ arrow_funcs).dedup
    classes := classes.dedup
    imports := imports.dedup
    content := some code }

/-- `parse_rust` of `parser_engine.py` on already-read file text: `fn`,
`struct`, `enum`, `trait` names are deduplicated, the `use ...;` imports
list is returned exactly as found (no `set`). -/
def parse_rust (code : String) : ParsedFile :=
  { emptyRecord with
    type := "rust"
    funcs := (findKwIdents "fn" code).dedup
    structs := (findKwIdents "struct" code).dedup
    enums := (findKwIdents "enum" code).dedup
    traits := (findKwIdents "trait" code).dedup
    imports := findNoB matchUse code
    content := some code }

/-- `parse_jac` of `parser_engine.py` on already-read file text: walkers,
nodes, enums, abilities, globals and edge names are deduplicated, the
three-part imports list is returned exactly as found (no `set`). -/
def parse_jac (code : String) : ParsedFile :=
  { emptyRecord with
    type := "jac"
    walkers := (findKwIdents "walker" code).dedup
    nodes := (findKwIdents "node" code).dedup
    enums := (findKwIdents "enum" code).dedup
    abilities := ((scanWithB matchCanWith (code.data.length + 1) false code.data).map (fun l => (⟨l⟩ : String))).dedup
    globals := ((scanWithB matchGlob (code.data.length + 1) false code.data).map (fun l => (⟨l⟩ : String))).dedup
    edges := (findKwIdents "edge" code).dedup
    imports :=
      findNoB (matchImportTagged "py".data) code ++
      findNoB (matchImportTagged "jac".data) code ++
      findNoB matchImportBrace code
    content := some code }

/-- Python `str.replace(pat, repl)`: non-overlapping left-to-right, fueled
(callers pass enough fuel; the patterns used are never empty, so the
`!pat.isEmpty` guard never falls through for them). -/
def replaceAux (pat repl : List Char) : Nat → List Char → List Char
  | 0, s => s
  | _ + 1, [] => []
  | fuel + 1, c :: t =>
    if !pat.isEmpty && pat.isPrefixOf (c :: t) then
      repl ++ replaceAux pat repl fuel ((c :: t).drop pat.length)
    else c :: replaceAux pat repl fuel t

/-- Python `s.replace(pat, repl)` on strings. -/
def pyReplace (s pat repl : String) : String :=
  ⟨replaceAux pat.data repl.data (s.data.length + 1) s.data⟩

/-- The node-id sanitizer of `generate_mermaid_diagram`:
`node_id.replace('::','_').replace(':','_').replace('/','_').replace('.','_')`. -/
def cleanId (node_id : String) : String :=
  pyReplace (pyReplace (pyReplace (pyReplace node_id "::" "_") ":" "_") "/" "_") "." "_"

/-- Stable insertion of one entry into a count-descending list: entries with
strictly larger counts stay ahead, so equal counts keep their prior order,
matching the stability of Python's `sorted(..., reverse=True)`. -/
def insertDesc (x : String × Nat) : List (String × Nat) → List (String × Nat)
  | [] => [x]
  | y :: ys => if x.2 < y.2 then y :: insertDesc x ys else x :: y :: ys

/-- Stable sort, descending by connection count, of
`sorted(node_connections.items(), key=lambda x: x[1], reverse=True)`. -/
def sortByCountDesc : List (String × Nat) → List (String × Nat)
  | [] => []
  | x :: xs => insertDesc x (sortByCountDesc xs)

/-- The dict comprehension
`{node_id: len(edges.get(node_id, [])) for node_id in nodes}`. -/
def node_connections_of (ccg : CCGDict) : List (String × Nat) :=
  ccg.nodes.foldl (fun acc pr => dictSet pr.1 ((dictGet pr.1 ccg.edges).getD []).length acc) []

/-- The selected `top_node_ids` of `generate_mermaid_diagram`.  The source
iterates this as a Python set, whose order is unspecified; we fix the order
in which the sorted prefix listed the ids (the set has exactly these
elements, and the ids of a dict are distinct). -/
def mermaidTopIds (ccg : CCGDict) (max_nodes : Nat) : List String :=
  ((sortByCountDesc (node_connections_of ccg)).take max_nodes).map (·.1)

/-- One visual node: the declaration line (shape and label chosen by entity
type) followed by its style line, exactly as the three f-string branches
emit them. -/
def mermaidNodeBlock (nodes : List (String × EntityData)) (node_id : String) : String :=
  let node_data := (dictGet node_id nodes).getD { name := node_id, type := "unknown", language := "", file_path := "" }
  let name := node_data.name
  let node_type := node_data.type
  let clean_id := cleanId node_id
  if node_type = "class" then
    "    " ++ clean_id ++ "[\"" ++ name ++ "\\n(class)\"]\n" ++
    "    style " ++ clean_id ++ " fill:#e1f5ff,stroke:#01579b\n"
  else if node_type = "node" || node_type = "walker" then
    "    " ++ clean_id ++ "\x7b\"" ++ name ++ "\\n(" ++ node_type ++ ")\"\x7d\n" ++
    "    style " ++ clean_id ++ " fill:#fff3e0,stroke:#e65100\n"
  else
    "    " ++ clean_id ++ "(\"" ++ name ++ "\\n(" ++ node_type ++ ")\")\n" ++
    "    style " ++ clean_id ++ " fill:#f3e5f5,stroke:#4a148c\n"

/-- The edge section: one arrow line per adjacency pair with both endpoints
selected, skipping pairs already emitted (the `added_edges` set is carried
as the second accumulator component). -/
def mermaidEdgesPart (edges : List (String × List String)) (top_ids : List String) : String :=
  (top_ids.foldl (fun (acc : String × List (String × String)) from_id =>
    ((dictGet from_id edges).getD []).foldl (fun acc2 to_id =>
      if top_ids.contains to_id && !acc2.2.contains (from_id, to_id) then
        (acc2.1 ++ "    " ++ cleanId from_id ++ " --> " ++ cleanId to_id ++ "\n",
         acc2.2 ++ [(from_id, to_id)])
      else acc2) acc) ("", [])).1

/-- `generate_mermaid_diagram`: header, then the selected node declarations
with styling, then the deduplicated edge lines. -/
def generate_mermaid_diagram (ccg : CCGDict) (max_nodes : Nat) : String :=
  "graph TD\n" ++
  String.join ((mermaidTopIds ccg max_nodes).map (mermaidNodeBlock ccg.nodes)) ++
  mermaidEdgesPart ccg.edges (mermaidTopIds ccg max_nodes)

/-- One response block of `query_ccg`. -/
inductive QueryBlock where
  | info (entity : EntityData)
  | callees (entity : EntityData) (calls : List EntityData)
  | callers (entity : EntityData) (called_by : List (Option EntityData))
deriving DecidableEq, Repr

/-- The return shape of `query_ccg`: `{'error': ...}` or `{'results': [...]}`. -/
inductive QueryResult where
  | error (msg : String)
  | results (blocks : List QueryBlock)
deriving DecidableEq, Repr

/-- The name-matching scan of `query_ccg`. -/
def matchingEntities (ccg : CCGDict) (entity_name : String) : List (String × EntityData) :=
  ccg.nodes.filter (fun pr => pr.2.name == entity_name)

/-- The blocks appended for one matching entity, by query type: the entity
record for `info`; the entity plus the records of the known ids it points
to for `callees`; the entity plus `nodes.get` of every id pointing to it
for `callers`; nothing for any other type. -/
def queryBlocksFor (ccg : CCGDict) (query_type : String) (pr : String × EntityData) : List QueryBlock :=
  if query_type = "info" then [.info pr.2]
  else if query_type = "callees" then
    [.callees pr.2 (((dictGet pr.1 ccg.edges).getD []).filterMap (fun cid => dictGet cid ccg.nodes))]
  else if query_type = "callers" then
    [.callers pr.2 (ccg.edges.foldl (fun acc epr =>
      if epr.2.contains pr.1 then acc ++ [dictGet epr.1 ccg.nodes] else acc) [])]
  else []

/-- `query_ccg`: the not-found error shape when no entity carries the name,
otherwise the accumulated per-match blocks. -/
def query_ccg (ccg : CCGDict) (query_type entity_name : String) : QueryResult :=
  if (matchingEntities ccg entity_name).isEmpty then
    .error ("Entity \"" ++ entity_name ++ "\" not found")
  else
    .results ((matchingEntities ccg entity_name).foldl
      (fun acc pr => acc ++ queryBlocksFor ccg query_type pr) [])

/-- The entity-id rule collected from the nine `add_node` call sites of
pass 1: jac ids carry a kind prefix (`path::kind:name`), every other
language uses the bare `path::name`. -/
def entity_id_for (language kind file_path name : String) : String :=
  if language = "jac" then file_path ++ "::" ++ kind ++ ":" ++ name
  else file_path ++ "::" ++ name

/-- The block `query_ccg` builds for one match when the query type is one of
the three documented kinds (used to state the query theorem). -/
def queryBlockOf (ccg : CCGDict) (query_type : String) (pr : String × EntityData) : QueryBlock :=
  if query_type = "callees" then
    .callees pr.2 (((dictGet pr.1 ccg.edges).getD []).filterMap (fun cid => dictGet cid ccg.nodes))
  else if query_type = "callers" then
    .callers pr.2 (ccg.edges.foldl (fun acc epr =>
      if epr.2.contains pr.1 then acc ++ [dictGet epr.1 ccg.nodes] else acc) [])
  else .info pr.2

/-- Which entity ids pass 1 actually creates for one non-error record (used
to state the pass-1 theorem): python functions and classes, jac nodes,
walkers and abilities with kind prefixes, javascript functions and classes,
rust functions and structs. -/
def pass1NodeIdSpec (p : ParsedFile) (x : String) : Prop :=
  (p.type = "python" ∧ ∃ n, (n ∈ p.funcs ∨ n ∈ p.classes) ∧ x = p.path ++ "::" ++ n) ∨
  (p.type = "jac" ∧
    ((∃ n ∈ p.nodes, x = p.path ++ "::node:" ++ n) ∨
     (∃ n ∈ p.walkers, x = p.path ++ "::walker:" ++ n) ∨
     (∃ n ∈ p.abilities, x = p.path ++ "::ability:" ++ n))) ∨
  (p.type = "javascript" ∧ ∃ n, (n ∈ p.funcs ∨ n ∈ p.classes) ∧ x = p.path ++ "::" ++ n) ∨
  (p.type = "rust" ∧ ∃ n, (n ∈ p.funcs ∨ n ∈ p.structs) ∧ x = p.path ++ "::" ++ n)

/-- Which `(id, record)` pairs pass 1 can store for one non-error record,
including the kind, language and file-path fields each call site writes. -/
def pass1NodeDataSpec (p : ParsedFile) (pr : String × EntityData) : Prop :=
  (p.type = "python" ∧
    ((∃ n ∈ p.funcs, pr = (p.path ++ "::" ++ n,
        { name := n, type := "function", language := "python", file_path := p.path })) ∨
     (∃ n ∈ p.classes, pr = (p.path ++ "::" ++ n,
        { name := n, type := "class", language := "python", file_path := p.path })))) ∨
  (p.type = "jac" ∧
    ((∃ n ∈ p.nodes, pr = (p.path ++ "::node:" ++ n,
        { name := n, type := "node", language := "jac", file_path := p.path })) ∨
     (∃ n ∈ p.walkers, pr = (p.path ++ "::walker:" ++ n,
        { name := n, type := "walker", language := "jac", file_path := p.path })) ∨
     (∃ n ∈ p.abilities, pr = (p.path ++ "::ability:" ++ n,
        { name := n, type := "ability", language := "jac", file_path := p.path })))) ∨
  (p.type = "javascript" ∧
    ((∃ n ∈ p.funcs, pr = (p.path ++ "::" ++ n,
        { name := n, type := "function", language := "javascript", file_path := p.path })) ∨
     (∃ n ∈ p.classes, pr = (p.path ++ "::" ++ n,
        { name := n, type := "class", language := "javascript", file_path := p.path })))) ∨
  (p.type = "rust" ∧
    ((∃ n ∈ p.funcs, pr = (p.path ++ "::" ++ n,
        { name := n, type := "function", language := "rust", file_path := p.path })) ∨
     (∃ n ∈ p.structs, pr = (p.path ++ "::" ++ n,
        { name := n, type := "struct", language := "rust", file_path := p.path }))))

/-- C1 fixture: a scanning file whose own entity name (length above 3)
occurs in its own content, next to a second file whose entity name does not
occur in the scanning file's text. -/
def c1ScanRec : ParsedFile :=
  { emptyRecord with
    path := "a.py", type := "python", funcs := ["long_name"]
    content := some "def long_name(): pass" }

/-- C1 fixture: the other file; its entity's name `zzzz` appears nowhere in
`a.py`'s content. -/
def c1OtherRec : ParsedFile :=
  { emptyRecord with path := "b.py", type := "python", funcs := ["zzzz"] }

/-- C2 fixture: `main.py` declaring `run_server` with the specified text. -/
def c2MainRec : ParsedFile :=
  { emptyRecord with
    path := "main.py", type := "python", funcs := ["run_server"]
    content := some "def run_server():\n    init_app()" }

/-- C2 fixture: `models.py` declaring `init_app`. -/
def c2ModelsRec : ParsedFile :=
  { emptyRecord with path := "models.py", type := "python", funcs := ["init_app"] }

/-- C3 fixture: a rust record whose only extracted items are an enum and a
trait. -/
def c3RustRec : ParsedFile :=
  { emptyRecord with
    path := "lib.rs", type := "rust"
    enums := ["ColorKind"], traits := ["Drawable"] }

/-- C3 fixture: a jac record whose only extracted items are an enum, a
global and an edge-type name. -/
def c3JacRec : ParsedFile :=
  { emptyRecord with
    path := "m.jac", type := "jac"
    enums := ["Weekday"], globals := ["counter"], edges := ["FriendEdge"] }

/-- C4 fixture: a python record declaring a function and a class of the same
name in the same file. -/
def c4Rec : ParsedFile :=
  { emptyRecord with
    path := "a.py", type := "python"
    funcs := ["Flag"], classes := ["Flag"] }

/-- C6 witness fixture: a graph holding exactly one node. -/
def c6Graph : CodeContextGraph :=
  emptyCCG.add_node "a.py::f"
    { name := "f", type := "function", language := "python", file_path := "a.py" }

/-- C8/C9 witness fixture record. -/
def c8Rec : ParsedFile :=
  { emptyRecord with path := "x.py", type := "python", funcs := ["alpha"] }

/-- C8 witness fixture snapshot. -/
def c8Dict : CCGDict :=
  build_code_context_graph [c8Rec]

/-- C9 witness fixture snapshot: one entity named `alpha`. -/
def c9Dict : CCGDict :=
  build_code_context_graph [c8Rec]

/-- C10 witness fixture: a graph whose file bucket for `a.py` already lists
the id that is re-added. -/
def c10Graph : CodeContextGraph :=
  emptyCCG.add_node "a.py::f"
    { name := "f", type := "function", language := "python", file_path := "a.py" }

/-- C10 witness fixture: the replacement record for the same id. -/
def c10Data : EntityData :=
  { name := "f", type := "class", language := "python", file_path := "a.py" }

/-- The exact condition under which pass 2 records a `calls` edge `x → y`,
relative to the graph state `g0` left by pass 1 (whose nodes and file index
pass 2 never changes): the record `p` is scanned (non-error, has content),
`y` is an entity of the scanning file whose stored name passes the
own-name-in-own-content test with length above 3, `x` is listed under a
different file, and both ids are nodes. -/
def pass2EdgeCond (g0 : CodeContextGraph) (p : ParsedFile) (x y : String) : Prop :=
  p.error = false ∧ ∃ c, p.content = some c ∧
    y ∈ (dictGet p.path g0.file_entities).getD [] ∧
    strIn (entityNameIn g0 y) c = true ∧
    (entityNameIn g0 y).length > 3 ∧
    (∃ pr ∈ g0.file_entities, pr.1 ≠ p.path ∧ x ∈ pr.2) ∧
    dictContains x g0.nodes = true ∧
    dictContains y g0.nodes = true

theorem dictGet_dictSet {κ α : Type} [DecidableEq κ] (k k' : κ) (v : α) (d : List (κ × α)) :
    dictGet k (dictSet k' v d) = if k = k' then some v else dictGet k d := by
  induction d with
  | nil =>
    by_cases h : k = k'
    · subst h; simp [dictSet, dictGet]
    · have h' : ¬(k' = k) := fun hh => h hh.symm
      simp [dictSet, dictGet, h, h']
  | cons pr rest ih =>
    obtain ⟨k'', v''⟩ := pr
    by_cases h1 : k'' = k'
    · subst h1
      by_cases h2 : k = k''
      · subst h2; simp [dictSet, dictGet]
      · have h2' : ¬(k'' = k) := fun hh => h2 hh.symm
        simp [dictSet, dictGet, h2, h2']
    · by_cases h2 : k'' = k
      · have h3 : ¬(k = k') := fun hh => h1 (h2.trans hh)
        simp [dictSet, dictGet, h1, h2, h3]
      · simp [dictSet, dictGet, h1, h2, ih]

theorem dictGet_dictAppend {κ α : Type} [DecidableEq κ] (k k' : κ) (v : α) (d : List (κ × List α)) :
    dictGet k (dictAppend k' v d) =
      if k = k' then some ((dictGet k' d).getD [] ++ [v]) else dictGet k d := by
  induction d with
  | nil =>
    by_cases h : k = k'
    · subst h; simp [dictAppend, dictGet]
    · have h' : ¬(k' = k) := fun hh => h hh.symm
      simp [dictAppend, dictGet, h, h']
  | cons pr rest ih =>
    obtain ⟨k'', vs⟩ := pr
    by_cases h1 : k'' = k'
    · subst h1
      by_cases h2 : k = k''
      · subst h2; simp [dictAppend, dictGet]
      · have h2' : ¬(k'' = k) := fun hh => h2 hh.symm
        simp [dictAppend, dictGet, h2, h2']
    · by_cases h2 : k'' = k
      · have h3 : ¬(k = k') := fun hh => h1 (h2.trans hh)
        simp [dictAppend, dictGet, h1, h2, h3]
      · simp [dictAppend, dictGet, h1, h2, ih]

theorem mem_dictKeys_dictSet {κ α : Type} [DecidableEq κ] (x k : κ) (v : α) (d : List (κ × α)) :
    x ∈ dictKeys (dictSet k v d) ↔ x = k ∨ x ∈ dictKeys d := by
  induction d with
  | nil => simp [dictSet, dictKeys]
  | cons pr rest ih =>
    obtain ⟨k', v'⟩ := pr
    by_cases h : k' = k
    · subst h
      simp [dictSet, dictKeys]
      try tauto
    · simp [dictSet, dictKeys, h] at ih ⊢
      tauto

theorem mem_dictSet {κ α : Type} [DecidableEq κ] (pr : κ × α) (k : κ) (v : α) (d : List (κ × α)) :
    pr ∈ dictSet k v d → pr = (k, v) ∨ pr ∈ d := by
  induction d with
  | nil => simp [dictSet]
  | cons hd rest ih =>
    obtain ⟨k', v'⟩ := hd
    by_cases h : k' = k
    · subst h; simp [dictSet]; tauto
    · simp [dictSet, h]
      intro hmem
      rcases hmem with h1 | h1
      · tauto
      · rcases ih h1 with h2 | h2 <;> tauto

theorem add_edge_nodes (g : CodeContextGraph) (a b t : String) :
    (g.add_edge a b t).nodes = g.nodes := by
  unfold CodeContextGraph.add_edge
  split <;> rfl

theorem add_edge_file_entities (g : CodeContextGraph) (a b t : String) :
    (g.add_edge a b t).file_entities = g.file_entities := by
  unfold CodeContextGraph.add_edge
  split <;> rfl

theorem add_node_nodes (g : CodeContextGraph) (i : String) (d : EntityData) :
    (g.add_node i d).nodes = dictSet i d g.nodes := by
  unfold CodeContextGraph.add_node
  split <;> rfl

theorem add_node_edges (g : CodeContextGraph) (i : String) (d : EntityData) :
    (g.add_node i d).edges = g.edges := by
  unfold CodeContextGraph.add_node
  split <;> rfl

theorem mem_adj_add_edge (g : CodeContextGraph) (a b t x y : String) :
    y ∈ adj (g.add_edge a b t) x ↔
      y ∈ adj g x ∨
        (dictContains a g.nodes = true ∧ dictContains b g.nodes = true ∧ x = a ∧ y = b) := by
  unfold CodeContextGraph.add_edge
  by_cases h : (dictContains a g.nodes && dictContains b g.nodes) = true
  · rw [if_pos h]
    rw [Bool.and_eq_true] at h
    unfold adj
    simp only
    rw [dictGet_dictAppend]
    by_cases hx : x = a
    · subst hx
      simp [h.1, h.2]
      try tauto
    · simp [hx]
  · rw [if_neg h]
    rw [Bool.and_eq_true] at h
    constructor
    · exact fun hm => Or.inl hm
    · intro hm
      rcases hm with hm | ⟨h1, h2, _, _⟩
      · exact hm
      · exact absurd ⟨h1, h2⟩ h

theorem foldl_pass2AddCalls_nodes (nm c e : String) (l : List String) (g : CodeContextGraph) :
    (l.foldl (pass2AddCalls nm c e) g).nodes = g.nodes := by
  induction l generalizing g with
  | nil => rfl
  | cons o t ih =>
    rw [List.foldl_cons, ih]
    unfold pass2AddCalls
    split
    · exact add_edge_nodes ..
    · rfl

theorem foldl_pass2AddCalls_file_entities (nm c e : String) (l : List String) (g : CodeContextGraph) :
    (l.foldl (pass2AddCalls nm c e) g).file_entities = g.file_entities := by
  induction l generalizing g with
  | nil => rfl
  | cons o t ih =>
    rw [List.foldl_cons, ih]
    unfold pass2AddCalls
    split
    · exact add_edge_file_entities ..
    · rfl

theorem mem_adj_foldl_pass2AddCalls (nm c e : String) (l : List String) (g : CodeContextGraph) (x y : String) :
    y ∈ adj (l.foldl (pass2AddCalls nm c e) g) x ↔
      y ∈ adj g x ∨
        ((strIn nm c && decide (nm.length > 3)) = true ∧
          ∃ o ∈ l, dictContains o g.nodes = true ∧ dictContains e g.nodes = true ∧ x = o ∧ y = e) := by
  induction l generalizing g with
  | nil => simp
  | cons o t ih =>
    rw [List.foldl_cons]
    rw [ih]
    unfold pass2AddCalls
    by_cases hc : (strIn nm c && decide (nm.length > 3)) = true
    · rw [if_pos hc]
      rw [mem_adj_add_edge]
      rw [add_edge_nodes]
      simp only [hc, true_and, List.mem_cons]
      constructor
      · rintro ((hm | ⟨h1, h2, h3, h4⟩) | ⟨o', ho', h1, h2, h3, h4⟩)
        · exact Or.inl hm
        · exact Or.inr ⟨o, Or.inl rfl, h1, h2, h3, h4⟩
        · exact Or.inr ⟨o', Or.inr ho', h1, h2, h3, h4⟩
      · rintro (hm | ⟨o', ho' | ho', h1, h2, h3, h4⟩)
        · exact Or.inl (Or.inl hm)
        · subst ho'
          exact Or.inl (Or.inr ⟨h1, h2, h3, h4⟩)
        · exact Or.inr ⟨o', ho', h1, h2, h3, h4⟩
    · rw [if_neg hc]
      constructor
      · rintro (hm | ⟨hcond, _⟩)
        · exact Or.inl hm
        · exact absurd hcond hc
      · rintro (hm | ⟨hcond, _⟩)
        · exact Or.inl hm
        · exact absurd hcond hc

theorem pass2Bucket_nodes (nm c e fp : String) (g : CodeContextGraph) (pr : String × List String) :
    (pass2Bucket nm c e fp g pr).nodes = g.nodes := by
  unfold pass2Bucket
  split
  · rfl
  · exact foldl_pass2AddCalls_nodes ..

theorem pass2Bucket_file_entities (nm c e fp : String) (g : CodeContextGraph) (pr : String × List String) :
    (pass2Bucket nm c e fp g pr).file_entities = g.file_entities := by
  unfold pass2Bucket
  split
  · rfl
  · exact foldl_pass2AddCalls_file_entities ..

theorem foldl_pass2Bucket_nodes (nm c e fp : String) (fe : List (String × List String)) (g : CodeContextGraph) :
    ((fe.foldl (pass2Bucket nm c e fp) g).nodes = g.nodes) := by
  induction fe generalizing g with
  | nil => rfl
  | cons pr t ih =>
    rw [List.foldl_cons, ih, pass2Bucket_nodes]

theorem foldl_pass2Bucket_file_entities (nm c e fp : String) (fe : List (String × List String)) (g : CodeContextGraph) :
    ((fe.foldl (pass2Bucket nm c e fp) g).file_entities = g.file_entities) := by
  induction fe generalizing g with
  | nil => rfl
  | cons pr t ih =>
    rw [List.foldl_cons, ih, pass2Bucket_file_entities]

theorem mem_adj_foldl_pass2Bucket (nm c e fp : String) (fe : List (String × List String)) (g : CodeContextGraph) (x y : String) :
    y ∈ adj (fe.foldl (pass2Bucket nm c e fp) g) x ↔
      y ∈ adj g x ∨
        ((strIn nm c && decide (nm.length > 3)) = true ∧
          ∃ pr ∈ fe, pr.1 ≠ fp ∧ ∃ o ∈ pr.2,
            dictContains o g.nodes = true ∧ dictContains e g.nodes = true ∧ x = o ∧ y = e) := by
  induction fe generalizing g with
  | nil => simp
  | cons pr t ih =>
    rw [List.foldl_cons, ih, pass2Bucket_nodes]
    unfold pass2Bucket
    by_cases hp : pr.1 = fp
    · rw [if_pos hp]
      constructor
      · rintro (hm | ⟨hcond, pr', hpr', hne, rest⟩)
        · exact Or.inl hm
        · exact Or.inr ⟨hcond, pr', List.mem_cons_of_mem _ hpr', hne, rest⟩
      · rintro (hm | ⟨hcond, pr', hpr', hne, rest⟩)
        · exact Or.inl hm
        · rcases List.mem_cons.mp hpr' with heq | hmem
          · subst heq; exact absurd hp hne
          · exact Or.inr ⟨hcond, pr', hmem, hne, rest⟩
    · rw [if_neg hp]
      rw [mem_adj_foldl_pass2AddCalls]
      constructor
      · rintro ((hm | ⟨hcond, o, ho, rest⟩) | ⟨hcond, pr', hpr', hne, rest⟩)
        · exact Or.inl hm
        · exact Or.inr ⟨hcond, pr, List.mem_cons_self _ _, hp, o, ho, rest⟩
        · exact Or.inr ⟨hcond, pr', List.mem_cons_of_mem _ hpr', hne, rest⟩
      · rintro (hm | ⟨hcond, pr', hpr', hne, rest⟩)
        · exact Or.inl (Or.inl hm)
        · rcases List.mem_cons.mp hpr' with heq | hmem
          · subst heq
            obtain ⟨o, ho, rest'⟩ := rest
            exact Or.inl (Or.inr ⟨hcond, o, ho, rest'⟩)
          · exact Or.inr ⟨hcond, pr', hmem, hne, rest⟩

theorem pass2Entity_nodes (fp c : String) (g : CodeContextGraph) (e : String) :
    (pass2Entity fp c g e).nodes = g.nodes := by
  unfold pass2Entity
  exact foldl_pass2Bucket_nodes ..

theorem pass2Entity_file_entities (fp c : String) (g : CodeContextGraph) (e : String) :
    (pass2Entity fp c g e).file_entities = g.file_entities := by
  unfold pass2Entity
  exact foldl_pass2Bucket_file_entities ..

theorem mem_adj_pass2Entity (fp c : String) (g : CodeContextGraph) (e x y : String) :
    y ∈ adj (pass2Entity fp c g e) x ↔
      y ∈ adj g x ∨
        ((strIn (entityNameIn g e) c && decide ((entityNameIn g e).length > 3)) = true ∧
          ∃ pr ∈ g.file_entities, pr.1 ≠ fp ∧ ∃ o ∈ pr.2,
            dictContains o g.nodes = true ∧ dictContains e g.nodes = true ∧ x = o ∧ y = e) := by
  unfold pass2Entity
  exact mem_adj_foldl_pass2Bucket ..

theorem entityNameIn_congr (g g' : CodeContextGraph) (e : String) (h : g.nodes = g'.nodes) :
    entityNameIn g e = entityNameIn g' e := by
  unfold entityNameIn
  rw [h]

theorem mem_adj_foldl_pass2Entity (fp c : String) (l : List String) :
    ∀ (g0 g : CodeContextGraph), g.nodes = g0.nodes → g.file_entities = g0.file_entities →
    ∀ x y : String,
    (y ∈ adj (l.foldl (pass2Entity fp c) g) x ↔
      y ∈ adj g x ∨
        ∃ e ∈ l, (strIn (entityNameIn g0 e) c && decide ((entityNameIn g0 e).length > 3)) = true ∧
          ∃ pr ∈ g0.file_entities, pr.1 ≠ fp ∧ ∃ o ∈ pr.2,
            dictContains o g0.nodes = true ∧ dictContains e g0.nodes = true ∧ x = o ∧ y = e) := by
  induction l with
  | nil => intro g0 g hn hf x y; simp
  | cons e t ih =>
    intro g0 g hn hf x y
    rw [List.foldl_cons]
    rw [ih g0 (pass2Entity fp c g e) (by rw [pass2Entity_nodes, hn]) (by rw [pass2Entity_file_entities, hf])]
    rw [mem_adj_pass2Entity]
    rw [entityNameIn_congr g g0 e hn, hn, hf]
    constructor
    · rintro ((hm | ⟨hcond, rest⟩) | ⟨e', he', rest⟩)
      · exact Or.inl hm
      · exact Or.inr ⟨e, List.mem_cons_self _ _, hcond, rest⟩
      · exact Or.inr ⟨e', List.mem_cons_of_mem _ he', rest⟩
    · rintro (hm | ⟨e', he', rest⟩)
      · exact Or.inl (Or.inl hm)
      · rcases List.mem_cons.mp he' with heq | hmem
        · subst heq
          exact Or.inl (Or.inr rest)
        · exact Or.inr ⟨e', hmem, rest⟩

theorem foldl_pass2Entity_nodes (fp c : String) (l : List String) (g : CodeContextGraph) :
    ((l.foldl (pass2Entity fp c) g).nodes = g.nodes) := by
  induction l generalizing g with
  | nil => rfl
  | cons e t ih => rw [List.foldl_cons, ih, pass2Entity_nodes]

theorem foldl_pass2Entity_file_entities (fp c : String) (l : List String) (g : CodeContextGraph) :
    ((l.foldl (pass2Entity fp c) g).file_entities = g.file_entities) := by
  induction l generalizing g with
  | nil => rfl
  | cons e t ih => rw [List.foldl_cons, ih, pass2Entity_file_entities]

theorem pass2_nodes (g : CodeContextGraph) (p : ParsedFile) :
    (pass2 g p).nodes = g.nodes := by
  unfold pass2
  split
  · rfl
  · split
    · rfl
    · exact foldl_pass2Entity_nodes ..

theorem pass2_file_entities (g : CodeContextGraph) (p : ParsedFile) :
    (pass2 g p).file_entities = g.file_entities := by
  unfold pass2
  split
  · rfl
  · split
    · rfl
    · exact foldl_pass2Entity_file_entities ..

theorem mem_adj_pass2 (g0 g : CodeContextGraph) (hn : g.nodes = g0.nodes)
    (hf : g.file_entities = g0.file_entities) (p : ParsedFile) (x y : String) :
    y ∈ adj (pass2 g p) x ↔ y ∈ adj g x ∨ pass2EdgeCond g0 p x y := by
  by_cases herr : p.error = true
  · unfold pass2
    rw [if_pos herr]
    constructor
    · exact fun hm => Or.inl hm
    · rintro (hm | ⟨hfalse, _⟩)
      · exact hm
      · rw [herr] at hfalse
        exact Bool.noConfusion hfalse
  · have herr' : p.error = false := by
      revert herr; cases p.error <;> simp
    unfold pass2
    rw [if_neg herr]
    cases hc : p.content with
    | none =>
      show y ∈ adj g x ↔ _
      constructor
      · exact fun hm => Or.inl hm
      · rintro (hm | ⟨_, c', hc', _⟩)
        · exact hm
        · rw [hc] at hc'
          exact Option.noConfusion hc'
    | some c =>
      show y ∈ adj (((dictGet p.path g.file_entities).getD []).foldl (pass2Entity p.path c) g) x ↔ _
      rw [mem_adj_foldl_pass2Entity p.path c _ g0 g hn hf x y]
      rw [hf]
      constructor
      · rintro (hm | ⟨e, he, hcond, pr, hpr, hne, o, ho, hco, hce, hx, hy⟩)
        · exact Or.inl hm
        · subst hx; subst hy
          rw [Bool.and_eq_true, decide_eq_true_eq] at hcond
          exact Or.inr ⟨herr', c, hc, he, hcond.1, hcond.2, ⟨pr, hpr, hne, ho⟩, hco, hce⟩
      · rintro (hm | ⟨_, c', hc', hy, hsub, hlen, ⟨pr, hpr, hne, hx⟩, hco, hce⟩)
        · exact Or.inl hm
        · rw [hc] at hc'
          injection hc' with hcc
          subst hcc
          exact Or.inr ⟨y, hy, by rw [Bool.and_eq_true, decide_eq_true_eq]; exact ⟨hsub, hlen⟩,
            pr, hpr, hne, x, hx, hco, hce, rfl, rfl⟩

theorem mem_adj_foldl_pass2 (pf : List ParsedFile) :
    ∀ (g0 g : CodeContextGraph), g.nodes = g0.nodes → g.file_entities = g0.file_entities →
    ∀ x y : String,
    (y ∈ adj (pf.foldl pass2 g) x ↔ y ∈ adj g x ∨ ∃ p ∈ pf, pass2EdgeCond g0 p x y) := by
  induction pf with
  | nil => intro g0 g hn hf x y; simp
  | cons p t ih =>
    intro g0 g hn hf x y
    rw [List.foldl_cons]
    rw [ih g0 (pass2 g p) (by rw [pass2_nodes, hn]) (by rw [pass2_file_entities, hf])]
    rw [mem_adj_pass2 g0 g hn hf]
    constructor
    · rintro ((hm | hcond) | ⟨p', hp', hcond⟩)
      · exact Or.inl hm
      · exact Or.inr ⟨p, List.mem_cons_self _ _, hcond⟩
      · exact Or.inr ⟨p', List.mem_cons_of_mem _ hp', hcond⟩
    · rintro (hm | ⟨p', hp', hcond⟩)
      · exact Or.inl (Or.inl hm)
      · rcases List.mem_cons.mp hp' with heq | hmem
        · subst heq; exact Or.inl (Or.inr hcond)
        · exact Or.inr ⟨p', hmem, hcond⟩

theorem foldl_add_node_edges (fid : String → String) (fdt : String → EntityData) (l : List String) (g : CodeContextGraph) :
    (l.foldl (fun g n => g.add_node (fid n) (fdt n)) g).edges = g.edges := by
  induction l generalizing g with
  | nil => rfl
  | cons n t ih =>
    rw [List.foldl_cons, ih, add_node_edges]

theorem pass1_edges (g : CodeContextGraph) (p : ParsedFile) :
    (pass1 g p).edges = g.edges := by
  unfold pass1
  split
  · rfl
  · split
    · exact (foldl_add_node_edges _ _ _ _).trans (foldl_add_node_edges _ _ _ _)
    · split
      · exact ((foldl_add_node_edges _ _ _ _).trans (foldl_add_node_edges _ _ _ _)).trans
          (foldl_add_node_edges _ _ _ _)
      · split
        · exact (foldl_add_node_edges _ _ _ _).trans (foldl_add_node_edges _ _ _ _)
        · split
          · exact (foldl_add_node_edges _ _ _ _).trans (foldl_add_node_edges _ _ _ _)
          · rfl

theorem pass1All_edges (pf : List ParsedFile) :
    (pass1All pf).edges = [] := by
  unfold pass1All
  have h : ∀ (l : List ParsedFile) (g : CodeContextGraph), (l.foldl pass1 g).edges = g.edges := by
    intro l
    induction l with
    | nil => intro g; rfl
    | cons p t ih => intro g; rw [List.foldl_cons, ih, pass1_edges]
  rw [h]
  rfl

/-- C1 (counterexample): the claim that a `calls` edge is recorded exactly
when the candidate target's name (length above 3) occurs in the scanning
file's text is false.  With `a.py` declaring `long_name` (content
`def long_name(): pass`) and `b.py` declaring `zzzz`, the name `zzzz` of the
candidate target never occurs in `a.py`'s text, yet pass 2 records the edge
`b.py::zzzz → a.py::long_name`, because the code tests the scanning
entity's own name against its own content. -/
theorem c1_target_name_test_refuted :
    strIn "zzzz" "def long_name(): pass" = false ∧
      "a.py::long_name" ∈ adj (buildGraph [c1ScanRec, c1OtherRec]) "b.py::zzzz" := by
  constructor
  · decide
  · decide

/-- C1 (amended): pass 2 of `build_code_context_graph` records a `calls`
edge `x → y` exactly when some non-error record `p` with text content `c`
lists `y` in the file index under `p.path`, the name stored for `y` — the
scanning file's own entity's name, not the candidate target's — has length
above 3 and occurs as a substring of `c`, `x` is listed under a different
file-index key, and both `x` and `y` exist as nodes; the edge runs from the
other file's entity `x` to the scanning file's entity `y`. -/
theorem c1_pass2_edge_characterization (pf : List ParsedFile) (x y : String) :
    y ∈ adj (buildGraph pf) x ↔ ∃ p ∈ pf, pass2EdgeCond (pass1All pf) p x y := by
  unfold buildGraph
  rw [mem_adj_foldl_pass2 pf (pass1All pf) (pass1All pf) rfl rfl x y]
  have hadj : adj (pass1All pf) x = [] := by
    unfold adj
    rw [pass1All_edges]
    rfl
  rw [hadj]
  simp

/-- C2 (counterexample): on the two specified python records the claimed
edge from `main.py::run_server` to `models.py::init_app` is absent; the
single edge produced runs the other way. -/
theorem c2_edge_direction_refuted :
    ¬ ("models.py::init_app" ∈ adj (buildGraph [c2MainRec, c2ModelsRec]) "main.py::run_server") ∧
      (build_code_context_graph [c2MainRec, c2ModelsRec]).edges =
        [("models.py::init_app", ["main.py::run_server"])] := by
  constructor
  · decide
  · decide

/-- C2 (amended): the two specified python records yield a graph with 2
nodes, a `calls` edge from `models.py::init_app` to `main.py::run_server`
(the direction the code's pass-2 rule actually produces), and
`stats.edge_count ≥ 1`. -/
theorem c2_end_to_end_scenario :
    (build_code_context_graph [c2MainRec, c2ModelsRec]).nodes.length = 2 ∧
      "main.py::run_server" ∈ adj (buildGraph [c2MainRec, c2ModelsRec]) "models.py::init_app" ∧
      (build_code_context_graph [c2MainRec, c2ModelsRec]).edge_types =
        [("models.py::init_app->main.py::run_server", "calls")] ∧
      1 ≤ (build_code_context_graph [c2MainRec, c2ModelsRec]).stats.edge_count := by
  refine ⟨?_, ?_, ?_, ?_⟩ <;> decide

theorem mem_dictKeys_foldl_add_node (fid : String → String) (fdt : String → EntityData)
    (l : List String) (g : CodeContextGraph) (x : String) :
    (x ∈ dictKeys ((l.foldl (fun g n => g.add_node (fid n) (fdt n)) g).nodes) ↔
      x ∈ dictKeys g.nodes ∨ ∃ n ∈ l, x = fid n) := by
  induction l generalizing g with
  | nil => simp
  | cons n t ih =>
    rw [List.foldl_cons, ih, add_node_nodes, mem_dictKeys_dictSet]
    constructor
    · rintro ((hx | hm) | ⟨n', hn', hx⟩)
      · exact Or.inr ⟨n, List.mem_cons_self _ _, hx⟩
      · exact Or.inl hm
      · exact Or.inr ⟨n', List.mem_cons_of_mem _ hn', hx⟩
    · rintro (hm | ⟨n', hn', hx⟩)
      · exact Or.inl (Or.inr hm)
      · rcases List.mem_cons.mp hn' with heq | hmem
        · subst heq; exact Or.inl (Or.inl hx)
        · exact Or.inr ⟨n', hmem, hx⟩

theorem mem_foldl_add_node_nodes (fid : String → String) (fdt : String → EntityData)
    (l : List String) (g : CodeContextGraph) (pr : String × EntityData) :
    pr ∈ ((l.foldl (fun g n => g.add_node (fid n) (fdt n)) g).nodes) →
      pr ∈ g.nodes ∨ ∃ n ∈ l, pr = (fid n, fdt n) := by
  induction l generalizing g with
  | nil => intro h; exact Or.inl h
  | cons n t ih =>
    rw [List.foldl_cons]
    intro h
    rcases ih _ h with hm | ⟨n', hn', heq⟩
    · rw [add_node_nodes] at hm
      rcases mem_dictSet _ _ _ _ hm with heq | hm'
      · exact Or.inr ⟨n, List.mem_cons_self _ _, heq⟩
      · exact Or.inl hm'
    · exact Or.inr ⟨n', List.mem_cons_of_mem _ hn', heq⟩

theorem mem_dictKeys_pass1 (g : CodeContextGraph) (p : ParsedFile) (x : String) :
    (x ∈ dictKeys (pass1 g p).nodes ↔
      x ∈ dictKeys g.nodes ∨ (p.error = false ∧ pass1NodeIdSpec p x)) := by
  by_cases herr : p.error = true
  · unfold pass1
    rw [if_pos herr]
    constructor
    · exact fun h => Or.inl h
    · rintro (h | ⟨hfalse, _⟩)
      · exact h
      · rw [herr] at hfalse
        exact Bool.noConfusion hfalse
  · have herr' : p.error = false := by revert herr; cases p.error <;> simp
    unfold pass1
    rw [if_neg herr]
    by_cases h1 : p.type = "python"
    · rw [if_pos h1]
      rw [mem_dictKeys_foldl_add_node, mem_dictKeys_foldl_add_node]
      simp only [pass1NodeIdSpec, h1, herr', true_and]
      have d1 : ("python" : String) ≠ "jac" := by decide
      have d2 : ("python" : String) ≠ "javascript" := by decide
      have d3 : ("python" : String) ≠ "rust" := by decide
      simp only [d1, d2, d3, false_and, or_false, or_and_right, exists_or, or_assoc]
    · rw [if_neg h1]
      by_cases h2 : p.type = "jac"
      · rw [if_pos h2]
        rw [mem_dictKeys_foldl_add_node, mem_dictKeys_foldl_add_node, mem_dictKeys_foldl_add_node]
        simp only [pass1NodeIdSpec, h2, herr', true_and]
        have d1 : ("jac" : String) ≠ "python" := by decide
        have d2 : ("jac" : String) ≠ "javascript" := by decide
        have d3 : ("jac" : String) ≠ "rust" := by decide
        simp only [d1, d2, d3, false_and, or_false, false_or, or_assoc]
      · rw [if_neg h2]
        by_cases h3 : p.type = "javascript"
        · rw [if_pos h3]
          rw [mem_dictKeys_foldl_add_node, mem_dictKeys_foldl_add_node]
          simp only [pass1NodeIdSpec, h3, herr', true_and]
          have d1 : ("javascript" : String) ≠ "python" := by decide
          have d2 : ("javascript" : String) ≠ "jac" := by decide
          have d3 : ("javascript" : String) ≠ "rust" := by decide
          simp only [d1, d2, d3, false_and, or_false, false_or, or_and_right, exists_or,
            or_assoc]
        · rw [if_neg h3]
          by_cases h4 : p.type = "rust"
          · rw [if_pos h4]
            rw [mem_dictKeys_foldl_add_node, mem_dictKeys_foldl_add_node]
            simp only [pass1NodeIdSpec, h4, herr', true_and]
            have d1 : ("rust" : String) ≠ "python" := by decide
            have d2 : ("rust" : String) ≠ "jac" := by decide
            have d3 : ("rust" : String) ≠ "javascript" := by decide
            simp only [d1, d2, d3, false_and, or_false, false_or, or_and_right, exists_or,
              or_assoc]
          · rw [if_neg h4]
            simp only [pass1NodeIdSpec, h1, h2, h3, h4, false_and, or_false, herr', true_and]

theorem mem_pass1_nodes (g : CodeContextGraph) (p : ParsedFile) (pr : String × EntityData) :
    pr ∈ (pass1 g p).nodes → pr ∈ g.nodes ∨ (p.error = false ∧ pass1NodeDataSpec p pr) := by
  by_cases herr : p.error = true
  · unfold pass1
    rw [if_pos herr]
    exact fun h => Or.inl h
  · have herr' : p.error = false := by revert herr; cases p.error <;> simp
    unfold pass1
    rw [if_neg herr]
    by_cases h1 : p.type = "python"
    · rw [if_pos h1]
      intro h
      rcases mem_foldl_add_node_nodes _ _ _ _ _ h with h' | ⟨n, hn, heq⟩
      · rcases mem_foldl_add_node_nodes _ _ _ _ _ h' with h'' | ⟨n, hn, heq⟩
        · exact Or.inl h''
        · exact Or.inr ⟨herr', Or.inl ⟨h1, Or.inl ⟨n, hn, heq⟩⟩⟩
      · exact Or.inr ⟨herr', Or.inl ⟨h1, Or.inr ⟨n, hn, heq⟩⟩⟩
    · rw [if_neg h1]
      by_cases h2 : p.type = "jac"
      · rw [if_pos h2]
        intro h
        rcases mem_foldl_add_node_nodes _ _ _ _ _ h with h' | ⟨n, hn, heq⟩
        · rcases mem_foldl_add_node_nodes _ _ _ _ _ h' with h'' | ⟨n, hn, heq⟩
          · rcases mem_foldl_add_node_nodes _ _ _ _ _ h'' with h3 | ⟨n, hn, heq⟩
            · exact Or.inl h3
            · exact Or.inr ⟨herr', Or.inr (Or.inl ⟨h2, Or.inl ⟨n, hn, heq⟩⟩)⟩
          · exact Or.inr ⟨herr', Or.inr (Or.inl ⟨h2, Or.inr (Or.inl ⟨n, hn, heq⟩)⟩)⟩
        · exact Or.inr ⟨herr', Or.inr (Or.inl ⟨h2, Or.inr (Or.inr ⟨n, hn, heq⟩)⟩)⟩
      · rw [if_neg h2]
        by_cases h3 : p.type = "javascript"
        · rw [if_pos h3]
          intro h
          rcases mem_foldl_add_node_nodes _ _ _ _ _ h with h' | ⟨n, hn, heq⟩
          · rcases mem_foldl_add_node_nodes _ _ _ _ _ h' with h'' | ⟨n, hn, heq⟩
            · exact Or.inl h''
            · exact Or.inr ⟨herr', Or.inr (Or.inr (Or.inl ⟨h3, Or.inl ⟨n, hn, heq⟩⟩))⟩
          · exact Or.inr ⟨herr', Or.inr (Or.inr (Or.inl ⟨h3, Or.inr ⟨n, hn, heq⟩⟩))⟩
        · rw [if_neg h3]
          by_cases h4 : p.type = "rust"
          · rw [if_pos h4]
            intro h
            rcases mem_foldl_add_node_nodes _ _ _ _ _ h with h' | ⟨n, hn, heq⟩
            · rcases mem_foldl_add_node_nodes _ _ _ _ _ h' with h'' | ⟨n, hn, heq⟩
              · exact Or.inl h''
              · exact Or.inr ⟨herr', Or.inr (Or.inr (Or.inr ⟨h4, Or.inl ⟨n, hn, heq⟩⟩))⟩
            · exact Or.inr ⟨herr', Or.inr (Or.inr (Or.inr ⟨h4, Or.inr ⟨n, hn, heq⟩⟩))⟩
          · rw [if_neg h4]
            exact fun h => Or.inl h

theorem mem_dictKeys_foldl_pass1 (l : List ParsedFile) :
    ∀ (g : CodeContextGraph) (x : String),
    (x ∈ dictKeys (l.foldl pass1 g).nodes ↔
      x ∈ dictKeys g.nodes ∨ ∃ p ∈ l, p.error = false ∧ pass1NodeIdSpec p x) := by
  induction l with
  | nil => intro g x; simp
  | cons p t ih =>
    intro g x
    rw [List.foldl_cons, ih, mem_dictKeys_pass1]
    constructor
    · rintro ((hm | hc) | ⟨p', hp', hc⟩)
      · exact Or.inl hm
      · exact Or.inr ⟨p, List.mem_cons_self _ _, hc⟩
      · exact Or.inr ⟨p', List.mem_cons_of_mem _ hp', hc⟩
    · rintro (hm | ⟨p', hp', hc⟩)
      · exact Or.inl (Or.inl hm)
      · rcases List.mem_cons.mp hp' with heq | hmem
        · subst heq; exact Or.inl (Or.inr hc)
        · exact Or.inr ⟨p', hmem, hc⟩

theorem mem_foldl_pass1_nodes (l : List ParsedFile) :
    ∀ (g : CodeContextGraph) (pr : String × EntityData),
    pr ∈ (l.foldl pass1 g).nodes →
      pr ∈ g.nodes ∨ ∃ p ∈ l, p.error = false ∧ pass1NodeDataSpec p pr := by
  induction l with
  | nil => intro g pr h; exact Or.inl h
  | cons p t ih =>
    intro g pr h
    rcases ih _ _ h with hm | ⟨p', hp', hc⟩
    · rcases mem_pass1_nodes _ _ _ hm with hm' | hc
      · exact Or.inl hm'
      · exact Or.inr ⟨p, List.mem_cons_self _ _, hc⟩
    · exact Or.inr ⟨p', List.mem_cons_of_mem _ hp', hc⟩

/-- C3 (counterexample): the claim that pass 1 inserts a node for every
extracted rust enum and trait and every extracted DSL enum, global and
edge-type name is false: a rust record carrying only an enum and a trait
and a jac record carrying only an enum, a global and an edge name produce
an entirely empty node set. -/
theorem c3_missing_kinds_refuted :
    c3RustRec.enums ≠ [] ∧ c3RustRec.traits ≠ [] ∧ c3JacRec.enums ≠ [] ∧
      c3JacRec.globals ≠ [] ∧ c3JacRec.edges ≠ [] ∧
      (pass1All [c3RustRec, c3JacRec]).nodes = [] := by
  refine ⟨?_, ?_, ?_, ?_, ?_, ?_⟩ <;> decide

/-- C3 (amended): pass 1 inserts nodes exactly for python functions and
classes, jac nodes, walkers and abilities (with the DSL kind-prefix id
rule), javascript functions and classes, and rust functions and structs of
non-error records; every stored record carries the kind, language and
file path of its generating call site.  Rust enums and traits and DSL
enums, globals and edge-type names are ignored. -/
theorem c3_pass1_node_characterization (pf : List ParsedFile) :
    (∀ x, x ∈ dictKeys (pass1All pf).nodes ↔
        ∃ p ∈ pf, p.error = false ∧ pass1NodeIdSpec p x) ∧
    (∀ pr ∈ (pass1All pf).nodes,
        ∃ p ∈ pf, p.error = false ∧ pass1NodeDataSpec p pr) := by
  constructor
  · intro x
    unfold pass1All
    rw [mem_dictKeys_foldl_pass1]
    simp [emptyCCG, dictKeys]
  · intro pr h
    unfold pass1All at h
    rcases mem_foldl_pass1_nodes _ _ _ h with hm | hc
    · exact absurd hm (by simp [emptyCCG])
    · exact hc

/-- C4 (counterexample): entity-id generation is not injective over
`(file_path, kind, name)` triples: a python function and a python class
named `Flag` in `a.py` receive the same id `a.py::Flag`, and in the graph
the later class record overwrites the function record, leaving one node. -/
theorem c4_injectivity_refuted :
    entity_id_for "python" "function" "a.py" "Flag" =
        entity_id_for "python" "class" "a.py" "Flag" ∧
      ("function" : String) ≠ "class" ∧
      (pass1All [c4Rec]).nodes =
        [("a.py::Flag",
          { name := "Flag", type := "class", language := "python", file_path := "a.py" })] := by
  refine ⟨rfl, by decide, by decide⟩

/-- C4 (amended): entity-id generation is a deterministic function of
language, kind, file path and name, and the DSL kind prefixes keep a jac
node, walker and ability of the same name in the same file pairwise
distinct; injectivity fails only for the non-prefixed languages, where two
kinds sharing a name in one file collide (see the counterexample). -/
theorem c4_id_determinism_and_dsl_distinct :
    (∀ language kind file_path name : String,
        entity_id_for language kind file_path name =
          entity_id_for language kind file_path name) ∧
    (∀ file_path name : String,
        entity_id_for "jac" "node" file_path name ≠
            entity_id_for "jac" "walker" file_path name ∧
          entity_id_for "jac" "node" file_path name ≠
            entity_id_for "jac" "ability" file_path name ∧
          entity_id_for "jac" "walker" file_path name ≠
            entity_id_for "jac" "ability" file_path name) := by
  constructor
  · intro language kind file_path name
    rfl
  · intro file_path name
    have l1 : ("::" : String).length = 2 := rfl
    have l2 : ("node" : String).length = 4 := rfl
    have l3 : ("walker" : String).length = 6 := rfl
    have l4 : ("ability" : String).length = 7 := rfl
    have l5 : (":" : String).length = 1 := rfl
    refine ⟨?_, ?_, ?_⟩ <;>
      · intro h
        have h2 := congrArg String.length h
        simp [entity_id_for, String.length_append, l1, l2, l3, l4, l5] at h2
        try omega

/-- C5 (counterexample): the rust extractor's `imports` list is not
deduplicated — two identical `use a;` statements yield `["a", "a"]`,
so the structural lists of a rust record are not all duplicate-free. -/
theorem c5_rust_imports_duplicates :
    (parse_rust "use a;use a;").imports = ["a", "a"] ∧
      ¬ (parse_rust "use a;use a;").imports.Nodup := by
  constructor
  · decide
  · decide

/-- C5 (amended): for the regex-based extractors, every field passed
through `list(set(...))` is duplicate-free — javascript funcs, classes and
imports, rust funcs, structs, enums and traits, and jac walkers, nodes,
enums, abilities, globals and edges; duplicates may occur in rust's
imports (see the counterexample), jac's imports, and python's lists. -/
theorem c5_dedup_fields_nodup (code : String) :
    (parse_javascript code).funcs.Nodup ∧ (parse_javascript code).classes.Nodup ∧
      (parse_javascript code).imports.Nodup ∧
      (parse_rust code).funcs.Nodup ∧ (parse_rust code).structs.Nodup ∧
      (parse_rust code).enums.Nodup ∧ (parse_rust code).traits.Nodup ∧
      (parse_jac code).walkers.Nodup ∧ (parse_jac code).nodes.Nodup ∧
      (parse_jac code).enums.Nodup ∧ (parse_jac code).abilities.Nodup ∧
      (parse_jac code).globals.Nodup ∧ (parse_jac code).edges.Nodup := by
  refine ⟨?_, ?_, ?_, ?_, ?_, ?_, ?_, ?_, ?_, ?_, ?_, ?_, ?_⟩ <;>
    exact List.nodup_dedup _

/-- C6: `add_edge` is a strict no-op — the entire graph state (nodes,
adjacency lists, edge-type index and file index) is unchanged — whenever
either endpoint is not an existing node; when both endpoints exist it
appends `to_id` to `from_id`'s adjacency list and sets the
`(from_id, to_id)` entry of the type index, leaving everything else
unchanged. -/
theorem c6_add_edge_guard (g : CodeContextGraph) (a b t : String) :
    (¬(dictContains a g.nodes = true ∧ dictContains b g.nodes = true) →
      g.add_edge a b t = g) ∧
    ((dictContains a g.nodes = true ∧ dictContains b g.nodes = true) →
      g.add_edge a b t =
        { g with
          edges := dictAppend a b g.edges
          edge_types := dictSet (a, b) t g.edge_types }) := by
  constructor
  · intro h
    unfold CodeContextGraph.add_edge
    rw [if_neg]
    rw [Bool.and_eq_true]
    exact h
  · intro h
    unfold CodeContextGraph.add_edge
    rw [if_pos]
    rw [Bool.and_eq_true]
    exact h

/-- C6 (witness): adding an edge to the absent id `ghost` leaves the
one-node fixture graph untouched. -/
theorem c6_add_edge_guard_witness :
    c6Graph.add_edge "a.py::f" "ghost" "calls" = c6Graph :=
  (c6_add_edge_guard c6Graph "a.py::f" "ghost" "calls").1 (by decide)

/-- C7: the builder and the diagram projector are pure functions of their
inputs — equal record lists give identical graph dictionaries and equal
snapshots with equal `max_nodes` give identical diagram strings (the
embedding fixes the set-iteration tie-break order, the one documented
source of nondeterminism). -/
theorem c7_determinism (pf1 pf2 : List ParsedFile) (d1 d2 : CCGDict) (m1 m2 : Nat)
    (hpf : pf1 = pf2) (hd : d1 = d2) (hm : m1 = m2) :
    build_code_context_graph pf1 = build_code_context_graph pf2 ∧
      generate_mermaid_diagram d1 m1 = generate_mermaid_diagram d2 m2 := by
  subst hpf; subst hd; subst hm
  exact ⟨rfl, rfl⟩

/-- C7 (witness): instantiated at the empty record list and the empty
snapshot. -/
theorem c7_determinism_witness :
    build_code_context_graph [] = build_code_context_graph [] ∧
      generate_mermaid_diagram emptyCCG.to_dict 0 =
        generate_mermaid_diagram emptyCCG.to_dict 0 :=
  c7_determinism [] [] emptyCCG.to_dict emptyCCG.to_dict 0 0 rfl rfl rfl

/-- C8: the diagram never selects more than `max_nodes` visual nodes; with
`max_nodes = 0`, or when the snapshot has no nodes at all, it emits exactly
the `graph TD` header with no body (and, being a total function, it never
raises). -/
theorem c8_diagram_bounds (ccg : CCGDict) (max_nodes : Nat) :
    (mermaidTopIds ccg max_nodes).length ≤ max_nodes ∧
      (max_nodes = 0 → generate_mermaid_diagram ccg max_nodes = "graph TD\n") ∧
      (ccg.nodes = [] → generate_mermaid_diagram ccg max_nodes = "graph TD\n") := by
  refine ⟨?_, ?_, ?_⟩
  · unfold mermaidTopIds
    rw [List.length_map]
    exact List.length_take_le _ _
  · intro hm
    subst hm
    have htop : mermaidTopIds ccg 0 = [] := by
      unfold mermaidTopIds
      simp
    unfold generate_mermaid_diagram
    rw [htop]
    simp only [List.map_nil, mermaidEdgesPart, List.foldl_nil]
    rfl
  · intro hn
    have htop : mermaidTopIds ccg max_nodes = [] := by
      unfold mermaidTopIds node_connections_of
      rw [hn]
      simp [sortByCountDesc]
    unfold generate_mermaid_diagram
    rw [htop]
    simp only [List.map_nil, mermaidEdgesPart, List.foldl_nil]
    rfl

/-- C8 (witness): at the concrete one-node snapshot with `max_nodes = 0`
the diagram is exactly the header. -/
theorem c8_diagram_bounds_witness :
    generate_mermaid_diagram c8Dict 0 = "graph TD\n" :=
  (c8_diagram_bounds c8Dict 0).2.1 rfl

theorem foldl_append_eq_map {α β : Type} (f : α → List β) (g : α → β)
    (hfg : ∀ a, f a = [g a]) :
    ∀ (l : List α) (init : List β),
      l.foldl (fun acc x => acc ++ f x) init = init ++ l.map g := by
  intro l
  induction l with
  | nil => intro init; simp
  | cons a t ih =>
    intro init
    rw [List.foldl_cons, ih, hfg]
    simp

/-- C9: for the three documented query kinds, `query_ccg` returns the
not-found error shape naming the queried entity exactly when no node's
`name` equals it; otherwise it returns the results shape with exactly one
block per matching entity — the record itself for `info`, the entity plus
the resolved records of everything it points to for `callees`, and the
entity plus `nodes.get` of everything pointing to it for `callers`. -/
theorem c9_query_shape (ccg : CCGDict) (query_type entity_name : String)
    (hq : query_type = "info" ∨ query_type = "callees" ∨ query_type = "callers") :
    ((matchingEntities ccg entity_name = []) ↔
      query_ccg ccg query_type entity_name =
        QueryResult.error ("Entity \"" ++ entity_name ++ "\" not found")) ∧
    (matchingEntities ccg entity_name ≠ [] →
      query_ccg ccg query_type entity_name =
        QueryResult.results
          ((matchingEntities ccg entity_name).map (queryBlockOf ccg query_type))) := by
  have hblocks : ∀ pr, queryBlocksFor ccg query_type pr = [queryBlockOf ccg query_type pr] := by
    intro pr
    rcases hq with h | h | h <;> subst h
    · simp [queryBlocksFor, queryBlockOf,
        show ("info" : String) ≠ "callees" from by decide,
        show ("info" : String) ≠ "callers" from by decide]
    · simp [queryBlocksFor, queryBlockOf,
        show ("callees" : String) ≠ "info" from by decide]
    · simp [queryBlocksFor, queryBlockOf,
        show ("callers" : String) ≠ "info" from by decide,
        show ("callers" : String) ≠ "callees" from by decide]
  constructor
  · constructor
    · intro h
      unfold query_ccg
      rw [if_pos (by rw [List.isEmpty_iff]; exact h)]
    · intro h
      by_contra hne
      unfold query_ccg at h
      rw [if_neg (by rw [List.isEmpty_iff]; exact hne)] at h
      exact QueryResult.noConfusion h
  · intro hne
    unfold query_ccg
    rw [if_neg (by rw [List.isEmpty_iff]; exact hne)]
    rw [foldl_append_eq_map _ _ hblocks]
    simp

/-- C9 (witness): on the one-entity fixture snapshot, querying the unknown
name `nope` returns the error shape and querying `alpha` returns one info
block. -/
theorem c9_query_shape_witness :
    query_ccg c9Dict "info" "nope" =
        QueryResult.error ("Entity \"" ++ "nope" ++ "\" not found") ∧
      query_ccg c9Dict "info" "alpha" =
        QueryResult.results ((matchingEntities c9Dict "alpha").map (queryBlockOf c9Dict "info")) :=
  ⟨((c9_query_shape c9Dict "info" "nope" (Or.inl rfl)).1).mp (by decide),
    (c9_query_shape c9Dict "info" "alpha" (Or.inl rfl)).2 (by decide)⟩

/-- C10: re-adding an existing node id with a record whose `file_path` is
non-empty replaces the stored record (last write wins) but appends the id
to that file's index bucket again, so the bucket then lists the id at
least twice. -/
theorem c10_add_node_reappends (g : CodeContextGraph) (id : String) (d : EntityData)
    (_hid : dictContains id g.nodes = true) (hfp : d.file_path ≠ "")
    (hbucket : id ∈ (dictGet d.file_path g.file_entities).getD []) :
    dictGet id (g.add_node id d).nodes = some d ∧
      2 ≤ ((dictGet d.file_path (g.add_node id d).file_entities).getD []).count id := by
  have hf : (g.add_node id d).file_entities = dictAppend d.file_path id g.file_entities := by
    unfold CodeContextGraph.add_node
    rw [if_pos hfp]
  constructor
  · rw [add_node_nodes, dictGet_dictSet, if_pos rfl]
  · rw [hf, dictGet_dictAppend, if_pos rfl]
    simp only [Option.getD_some]
    rw [List.count_append]
    have h1 : 0 < ((dictGet d.file_path g.file_entities).getD []).count id := by
      rw [List.count_pos_iff]
      exact hbucket
    have h2 : List.count id [id] = 1 := by simp
    omega

/-- C3 (witness): the characterization applied to the one-record list
whose python record declares function and class `Flag`. -/
theorem c3_pass1_node_characterization_witness :
    ∃ p ∈ [c4Rec], p.error = false ∧
      pass1NodeDataSpec p ("a.py::Flag",
        { name := "Flag", type := "class", language := "python", file_path := "a.py" }) :=
  (c3_pass1_node_characterization [c4Rec]).2
    ("a.py::Flag", { name := "Flag", type := "class", language := "python", file_path := "a.py" })
    (by decide)

/-- C10 (witness): on the fixture graph whose `a.py` bucket already lists
`a.py::f`, re-adding that id stores the new record and duplicates the
bucket entry. -/
theorem c10_add_node_reappends_witness :
    dictGet "a.py::f" (c10Graph.add_node "a.py::f" c10Data).nodes = some c10Data ∧
      2 ≤ ((dictGet "a.py" (c10Graph.add_node "a.py::f" c10Data).file_entities).getD []).count "a.py::f" := by
  have h := c10_add_node_reappends c10Graph "a.py::f" c10Data (by decide) (by decide) (by decide)
  exact h
